import Mathlib

/-!
Verification development for the `sshcp` npm launcher (`src/bin/check-deps.js`)
and the watch-mode two-way synchronization engine described in the
repository's documentation. The launcher definitions are shallow embeddings
of the JavaScript in `src/bin/check-deps.js`; the watch-engine definitions
are modelled from the specification, since the Python implementation of the
watch subsystem is not part of the provided sources.
-/

namespace CheckDeps

/-- Result of a `spawnSync` call: the child's exit status, which is `none`
when the child was terminated by a signal (JavaScript `null`). -/
structure SpawnResult where
  status : Option Int
  deriving DecidableEq, Repr

/-- The ambient process environment seen by `check-deps.js`: the value of
`process.platform` and the behaviour of `spawnSync` (command, argument list);
`Except.error` models `spawnSync` raising an exception. -/
structure Env where
  platform : String
  spawnSync : String → List String → Except Unit SpawnResult

/-- The lookup tool chosen in `commandExists`:
`process.platform === 'win32' ? 'where' : 'which'`. -/
def lookupTool (platform : String) : String :=
  if platform = "win32" then "where" else "which"

/-- Embeds `commandExists(cmd)` from `src/bin/check-deps.js`: spawn the
platform lookup tool on `cmd`, return `result.status === 0`, and return
`false` if spawning raised. -/
def commandExists (env : Env) (cmd : String) : Bool :=
  match env.spawnSync (lookupTool env.platform) [cmd] with
  | .error _ => false
  | .ok result => result.status = some 0

/-- The constant `PACKAGE_NAME` from `src/bin/check-deps.js`. -/
def PACKAGE_NAME : String := "sshcp"

/-- What `runSshcp` did: spawned one child process with a command and an
argument list, or found no runner (printed installation instructions and
exited with code 1). -/
inductive RunOutcome where
  | spawned (cmd : String) (args : List String)
  | noRunner
  deriving DecidableEq, Repr

/-- Embeds `runSshcp(args)` from `src/bin/check-deps.js`: try `uvx`, then
`pipx`, then a direct `sshcp` binary, spawning the first one that exists;
otherwise report that no runner is available. -/
def runSshcp (env : Env) (args : List String) : RunOutcome :=
  if commandExists env "uvx" then .spawned "uvx" (PACKAGE_NAME :: args)
  else if commandExists env "pipx" then .spawned "pipx" ("run" :: PACKAGE_NAME :: args)
  else if commandExists env "sshcp" then .spawned "sshcp" args
  else .noRunner

/-- Number of child processes spawned for a given outcome. -/
def spawnCount : RunOutcome → Nat
  | .spawned _ _ => 1
  | .noRunner => 0

/-- Whether the installation-instructions banner is printed (the
`console.error` block in the no-runner branch of `runSshcp`). -/
def printsInstructions : RunOutcome → Bool
  | .spawned _ _ => false
  | .noRunner => true

/-- Embeds the close handler `proc.on('close', (code) => process.exit(code || 0))`:
a `null` close code (signal-killed child) and a zero code both map to exit
code 0, any other code is forwarded. -/
def exitCodeOfClose (code : Option Int) : Int :=
  match code with
  | none => 0
  | some c => if c = 0 then 0 else c

/-- The launcher's own exit code: the mapped close code of the spawned child,
or `1` from `process.exit(1)` when no runner was found. -/
def launcherExit (env : Env) (args : List String) (closeCode : Option Int) : Int :=
  match runSshcp env args with
  | .spawned _ _ => exitCodeOfClose closeCode
  | .noRunner => 1

/-- An environment in which every command lookup succeeds with status 0. -/
def envAll : Env := ⟨"linux", fun _ _ => .ok ⟨some 0⟩⟩

/-- An environment in which spawning the lookup tool always raises. -/
def envNone : Env := ⟨"linux", fun _ _ => .error ()⟩

/-- An environment in which only `pipx` is found. -/
def envPipx : Env :=
  ⟨"linux", fun _ args => if args = ["pipx"] then .ok ⟨some 0⟩ else .ok ⟨some 1⟩⟩

end CheckDeps

namespace Watch

/-- Modelled from the spec: a relative path under the watched root (the watch
subsystem's source is not in the provided files). -/
abbrev Path := String

/-- Modelled from the spec: one filesystem object under watch — size, last
modification timestamp, and kind (file or directory). -/
structure Entry where
  size : Nat
  modifiedTime : Nat
  isDir : Bool
  deriving DecidableEq, Repr

/-- Modelled from the spec: a Snapshot maps relative paths to Entries, taken
at one instant for one side. -/
abbrev Snapshot := List (Path × Entry)

/-- Modelled from the spec: look a path up in a snapshot; `none` means the
path does not exist on that side. -/
def findEntry : Snapshot → Path → Option Entry
  | [], _ => none
  | (k, v) :: rest, p => if k = p then some v else findEntry rest p

/-- Modelled from the spec: point update of a snapshot at one path; `none`
removes the path. -/
def setEntry : Snapshot → Path → Option Entry → Snapshot
  | [], _, none => []
  | [], p, some v => [(p, v)]
  | (k, v) :: rest, p, e =>
      if k = p then setEntry rest p e else (k, v) :: setEntry rest p e

/-- Modelled from the spec: the State Store's persisted record of the
snapshot pair (local, remote) as of the last successful sync. -/
structure Baseline where
  localSnap : Snapshot
  remoteSnap : Snapshot
  deriving DecidableEq, Repr

/-- Modelled from the spec: the per-path outcome of comparing current local,
current remote and baseline; `unchangedResolved` is the converged case where
both sides changed to the same entry. -/
inductive ChangeRecord where
  | unchanged
  | unchangedResolved
  | localOnly
  | remoteOnly
  | conflict
  | localDeleted
  | remoteDeleted
  | bothDeleted
  deriving DecidableEq, Repr

/-- Modelled from the spec: the Change Detector's per-path classification
from baseline-local `bl`, baseline-remote `br`, current-local `cl` and
current-remote `cr` entries, using entry (size+mtime+kind) equality as the
change signal. -/
def classifyEntries (bl br cl cr : Option Entry) : ChangeRecord :=
  if cl = bl then
    if cr = br then .unchanged
    else if cr = none then .remoteDeleted
    else .remoteOnly
  else
    if cr = br then
      if cl = none then .localDeleted
      else .localOnly
    else
      if cl = cr then
        if cl = none then .bothDeleted
        else .unchangedResolved
      else .conflict

/-- Modelled from the spec: the five configured conflict-resolution modes. -/
inductive Mode where
  | ask
  | localMode
  | remoteMode
  | newer
  | skipMode
  deriving DecidableEq, Repr

/-- Modelled from the spec: the decision for a both-changed path. -/
inductive Resolution where
  | keepLocal
  | keepRemote
  | skip
  deriving DecidableEq, Repr

/-- Modelled from the spec: timestamp of an optional entry (a deleted side is
treated as oldest). -/
def entryMTime : Option Entry → Nat
  | none => 0
  | some e => e.modifiedTime

/-- Modelled from the spec: the Conflict Resolver. `ans` is the operator's
interactive answer in `ask` mode; `newer` keeps the strictly later timestamp
and falls back to keep-local on an exact tie. -/
def resolveConflict (m : Mode) (ans : Resolution) (cl cr : Option Entry) : Resolution :=
  match m with
  | .ask => ans
  | .localMode => .keepLocal
  | .remoteMode => .keepRemote
  | .newer => if entryMTime cl < entryMTime cr then .keepRemote else .keepLocal
  | .skipMode => .skip

/-- Modelled from the spec: whether a path raises an interactive conflict
prompt (only `ask` mode on a both-changed path). -/
def promptRequired (m : Mode) (rec : ChangeRecord) : Bool :=
  match m, rec with
  | .ask, .conflict => true
  | _, _ => false

/-- Modelled from the spec: the materialized sync operations. -/
inductive SyncAction where
  | copyToRemote
  | copyToLocal
  | deleteRemote
  | deleteLocal
  deriving DecidableEq, Repr

/-- Modelled from the spec: the Sync Executor's per-path action choice;
`none` means no action (unchanged, converged, both-deleted, or skip). -/
def actionForPath (m : Mode) (ans : Resolution) (bl br cl cr : Option Entry) :
    Option SyncAction :=
  match classifyEntries bl br cl cr with
  | .unchanged => none
  | .unchangedResolved => none
  | .bothDeleted => none
  | .localOnly => some .copyToRemote
  | .localDeleted => some .deleteRemote
  | .remoteOnly => some .copyToLocal
  | .remoteDeleted => some .deleteLocal
  | .conflict =>
      match resolveConflict m ans cl cr with
      | .keepLocal => if cl = none then some .deleteRemote else some .copyToRemote
      | .keepRemote => if cr = none then some .deleteLocal else some .copyToLocal
      | .skip => none

/-- Modelled from the spec: the union of paths seen in either snapshot or the
baseline, with duplicates removed, the domain the Change Detector covers. -/
def pathsOf (l r : Snapshot) (b : Baseline) : List Path :=
  (l.map Prod.fst ++ r.map Prod.fst ++
    b.localSnap.map Prod.fst ++ b.remoteSnap.map Prod.fst).dedup

/-- Modelled from the spec: the per-path classification inside one cycle. -/
def classifyPath (l r : Snapshot) (b : Baseline) (p : Path) : ChangeRecord :=
  classifyEntries (findEntry b.localSnap p) (findEntry b.remoteSnap p)
    (findEntry l p) (findEntry r p)

/-- Modelled from the spec: the action the Sync Executor decides for one path
of a cycle; `ans` gives the operator's interactive answer per path. -/
def actionAt (m : Mode) (ans : Path → Resolution) (l r : Snapshot) (b : Baseline)
    (p : Path) : Option SyncAction :=
  actionForPath m (ans p) (findEntry b.localSnap p) (findEntry b.remoteSnap p)
    (findEntry l p) (findEntry r p)

/-- Modelled from the spec: the list of SyncActions one cycle decides, one per
non-unchanged, non-skip path. -/
def cycleActions (m : Mode) (ans : Path → Resolution) (l r : Snapshot)
    (b : Baseline) : List (Path × SyncAction) :=
  (pathsOf l r b).filterMap fun p =>
    (actionAt m ans l r b p).map fun a => (p, a)

/-- Modelled from the spec: State Store `recordSuccess` — update the
persisted baseline for one path with the post-action local/remote entries. -/
def recordSuccess (b : Baseline) (p : Path) (le re : Option Entry) : Baseline :=
  ⟨setEntry b.localSnap p le, setEntry b.remoteSnap p re⟩

/-- Modelled from the spec: the post-action (local, remote) entries for a
successful action at a path whose pre-action entries are `cl`, `cr`; copies
preserve size and mtime, deletions remove the entry. -/
def postEntries (a : SyncAction) (cl cr : Option Entry) :
    Option Entry × Option Entry :=
  match a with
  | .copyToRemote => (cl, cl)
  | .copyToLocal => (cr, cr)
  | .deleteRemote => (cl, none)
  | .deleteLocal => (none, cr)

/-- Modelled from the spec: the state one cycle acts on — the two current
trees and the persisted baseline. -/
structure CycleState where
  localSnap : Snapshot
  remoteSnap : Snapshot
  baseline : Baseline
  deriving DecidableEq, Repr

/-- Modelled from the spec: apply one SyncAction. A failing path (`fails`)
leaves everything untouched and is left out of the baseline update; a
succeeding path updates the target tree and immediately records success in
the baseline. -/
def applyAction (fails : Path → Bool) (st : CycleState) (pa : Path × SyncAction) :
    CycleState :=
  if fails pa.1 then st
  else
    let cl := findEntry st.localSnap pa.1
    let cr := findEntry st.remoteSnap pa.1
    let post := postEntries pa.2 cl cr
    { localSnap := setEntry st.localSnap pa.1 post.1
      remoteSnap := setEntry st.remoteSnap pa.1 post.2
      baseline := recordSuccess st.baseline pa.1 post.1 post.2 }

/-- Modelled from the spec: the apply phase — each decided action is
attempted in turn, independently of the others' outcomes. -/
def runApply (fails : Path → Bool) (st : CycleState)
    (acts : List (Path × SyncAction)) : CycleState :=
  acts.foldl (applyAction fails) st

/-- Modelled from the spec: one full watch cycle given already-captured
snapshots: diff against the baseline, resolve conflicts, apply all decided
actions. -/
def runCycle (m : Mode) (ans : Path → Resolution) (fails : Path → Bool)
    (st : CycleState) : CycleState :=
  runApply fails st (cycleActions m ans st.localSnap st.remoteSnap st.baseline)

/-- Modelled from the spec: a snapshot-capture failure — `SnapshotError`,
specialized to `RemoteListError` / `LocalListError`. -/
inductive ListError where
  | remoteListError
  | localListError
  deriving DecidableEq, Repr

/-- Modelled from the spec: one watch cycle with fallible snapshot capture.
A listing failure is reported as the cycle's error: no actions are applied
and no state is produced (the failure is never treated as an empty tree). -/
def watchCycle (m : Mode) (ans : Path → Resolution) (fails : Path → Bool)
    (b : Baseline) (localRes remoteRes : Except ListError Snapshot) :
    Except ListError (List (Path × SyncAction) × CycleState) :=
  match localRes, remoteRes with
  | .error e, _ => .error e
  | _, .error e => .error e
  | .ok l, .ok r => .ok (cycleActions m ans l r b, runCycle m ans fails ⟨l, r, b⟩)

/-- Modelled from the spec: the baseline the next cycle starts from — a
failed cycle retries from the same baseline, a successful one continues from
the updated baseline. -/
def watchStep (m : Mode) (ans : Path → Resolution) (fails : Path → Bool)
    (b : Baseline) (localRes remoteRes : Except ListError Snapshot) : Baseline :=
  match watchCycle m ans fails b localRes remoteRes with
  | .error _ => b
  | .ok (_, st) => st.baseline

/-- Modelled from the spec: how a run of the watch CLI terminates — a clean
operator-initiated stop, or an unrecoverable setup failure (remote
unreachable at start, or no way to run the tool). -/
inductive WatchTermination where
  | cleanStop
  | setupFailure
  deriving DecidableEq, Repr

/-- Modelled from the spec: the watch CLI's exit code — 0 on a clean
operator-initiated stop, non-zero (1) on an unrecoverable setup failure. -/
def watchExitCode : WatchTermination → Nat
  | .cleanStop => 0
  | .setupFailure => 1

theorem findEntry_setEntry (s : Snapshot) (p : Path) (e : Option Entry) (q : Path) :
    findEntry (setEntry s p e) q = if q = p then e else findEntry s q := by
  induction s with
  | nil =>
    by_cases h : q = p
    · subst h
      cases e <;> simp [setEntry, findEntry]
    · cases e <;> simp [setEntry, findEntry, h, Ne.symm h]
  | cons kv rest ih =>
    obtain ⟨k, v⟩ := kv
    by_cases hk : k = p
    · subst hk
      by_cases hq : q = k
      · subst hq
        simp [setEntry, findEntry, ih]
      · simp [setEntry, findEntry, ih, hq, Ne.symm hq]
    · by_cases hq : q = k
      · subst hq
        have hqp : q ≠ p := hk
        simp [setEntry, findEntry, hk, hqp, ih]
      · simp [setEntry, findEntry, hk, Ne.symm hq, hq, ih]

theorem classifyEntries_conflict_iff (bl br cl cr : Option Entry) :
    classifyEntries bl br cl cr = .conflict ↔ (cl ≠ bl ∧ cr ≠ br ∧ cl ≠ cr) := by
  unfold classifyEntries
  split_ifs <;> simp_all

theorem classifyEntries_unchanged (bl br cl cr : Option Entry)
    (hl : cl = bl) (hr : cr = br) : classifyEntries bl br cl cr = .unchanged := by
  unfold classifyEntries
  rw [if_pos hl, if_pos hr]

theorem classifyEntries_converged (bl br cl cr : Option Entry)
    (hl : cl ≠ bl) (hr : cr ≠ br) (hc : cl = cr) (hs : cl ≠ none) :
    classifyEntries bl br cl cr = .unchangedResolved := by
  unfold classifyEntries
  split_ifs <;> simp_all

theorem actionForPath_of_classify_none (m : Mode) (ans : Resolution)
    (bl br cl cr : Option Entry)
    (h : classifyEntries bl br cl cr = .unchanged ∨
         classifyEntries bl br cl cr = .unchangedResolved ∨
         classifyEntries bl br cl cr = .bothDeleted) :
    actionForPath m ans bl br cl cr = none := by
  unfold actionForPath
  rcases h with h | h | h <;> rw [h]

theorem applyAction_other (fails : Path → Bool) (st : CycleState)
    (pa : Path × SyncAction) (p : Path) (h : pa.1 ≠ p) :
    findEntry (applyAction fails st pa).localSnap p = findEntry st.localSnap p ∧
    findEntry (applyAction fails st pa).remoteSnap p = findEntry st.remoteSnap p ∧
    findEntry (applyAction fails st pa).baseline.localSnap p =
      findEntry st.baseline.localSnap p ∧
    findEntry (applyAction fails st pa).baseline.remoteSnap p =
      findEntry st.baseline.remoteSnap p := by
  unfold applyAction
  split
  · exact ⟨rfl, rfl, rfl, rfl⟩
  · simp [recordSuccess, findEntry_setEntry, Ne.symm h]

theorem runApply_not_mem (fails : Path → Bool) (p : Path) :
    ∀ (acts : List (Path × SyncAction)) (st : CycleState),
      p ∉ acts.map Prod.fst →
      findEntry (runApply fails st acts).localSnap p = findEntry st.localSnap p ∧
      findEntry (runApply fails st acts).remoteSnap p = findEntry st.remoteSnap p ∧
      findEntry (runApply fails st acts).baseline.localSnap p =
        findEntry st.baseline.localSnap p ∧
      findEntry (runApply fails st acts).baseline.remoteSnap p =
        findEntry st.baseline.remoteSnap p := by
  intro acts
  induction acts with
  | nil => exact fun st _ => ⟨rfl, rfl, rfl, rfl⟩
  | cons pa rest ih =>
    intro st h
    rw [List.map_cons, List.mem_cons] at h
    push_neg at h
    have h1 := applyAction_other fails st pa p (fun hh => h.1 hh.symm)
    have h2 := ih (applyAction fails st pa) h.2
    exact ⟨h2.1.trans h1.1, h2.2.1.trans h1.2.1,
      h2.2.2.1.trans h1.2.2.1, h2.2.2.2.trans h1.2.2.2⟩

theorem runApply_failed (fails : Path → Bool) (p : Path) (hf : fails p = true) :
    ∀ (acts : List (Path × SyncAction)) (st : CycleState),
      findEntry (runApply fails st acts).localSnap p = findEntry st.localSnap p ∧
      findEntry (runApply fails st acts).remoteSnap p = findEntry st.remoteSnap p ∧
      findEntry (runApply fails st acts).baseline.localSnap p =
        findEntry st.baseline.localSnap p ∧
      findEntry (runApply fails st acts).baseline.remoteSnap p =
        findEntry st.baseline.remoteSnap p := by
  intro acts
  induction acts with
  | nil => exact fun st => ⟨rfl, rfl, rfl, rfl⟩
  | cons pa rest ih =>
    intro st
    by_cases hp : pa.1 = p
    · have hid : applyAction fails st pa = st := by
        unfold applyAction
        rw [hp, hf]
        simp
      rw [runApply, List.foldl_cons, hid]
      exact ih st
    · have h1 := applyAction_other fails st pa p hp
      have h2 := ih (applyAction fails st pa)
      exact ⟨h2.1.trans h1.1, h2.2.1.trans h1.2.1,
        h2.2.2.1.trans h1.2.2.1, h2.2.2.2.trans h1.2.2.2⟩

theorem runApply_mem (fails : Path → Bool) (p : Path) (a : SyncAction)
    (hf : fails p = false) :
    ∀ (acts : List (Path × SyncAction)) (st : CycleState),
      (acts.map Prod.fst).Nodup → (p, a) ∈ acts →
      findEntry (runApply fails st acts).baseline.localSnap p =
        (postEntries a (findEntry st.localSnap p) (findEntry st.remoteSnap p)).1 ∧
      findEntry (runApply fails st acts).baseline.remoteSnap p =
        (postEntries a (findEntry st.localSnap p) (findEntry st.remoteSnap p)).2 := by
  intro acts
  induction acts with
  | nil => intro st _ hmem; cases hmem
  | cons pa rest ih =>
    intro st hnd hmem
    rw [List.map_cons, List.nodup_cons] at hnd
    rcases List.mem_cons.mp hmem with heq | hmem'
    · subst heq
      have hrest : p ∉ rest.map Prod.fst := hnd.1
      rw [runApply, List.foldl_cons]
      have hpres := runApply_not_mem fails p rest (applyAction fails st (p, a)) hrest
      rw [runApply] at hpres
      refine ⟨hpres.2.2.1.trans ?_, hpres.2.2.2.trans ?_⟩ <;>
        simp [applyAction, hf, recordSuccess, findEntry_setEntry]
    · have hp : pa.1 ≠ p := by
        intro hh
        exact hnd.1 (hh ▸ List.mem_map_of_mem Prod.fst hmem')
      have h1 := applyAction_other fails st pa p hp
      have h2 := ih (applyAction fails st pa) hnd.2 hmem'
      rw [runApply, List.foldl_cons]
      rw [runApply] at h2
      rw [h1.1, h1.2.1] at h2
      exact h2

theorem filterMap_keys_sublist (g : Path → Option SyncAction) :
    ∀ ps : List Path,
      ((ps.filterMap fun p => (g p).map fun a => (p, a)).map Prod.fst).Sublist ps := by
  intro ps
  induction ps with
  | nil => simp
  | cons p rest ih =>
    rw [List.filterMap_cons]
    cases hg : g p with
    | none => exact ih.cons p
    | some a =>
      rw [Option.map_some', List.map_cons]
      exact ih.cons₂ p

theorem cycleActions_keys_nodup (m : Mode) (ans : Path → Resolution)
    (l r : Snapshot) (b : Baseline) :
    ((cycleActions m ans l r b).map Prod.fst).Nodup :=
  (filterMap_keys_sublist (actionAt m ans l r b) (pathsOf l r b)).nodup
    (List.nodup_dedup _)

theorem mem_cycleActions {m : Mode} {ans : Path → Resolution} {l r : Snapshot}
    {b : Baseline} {p : Path} {a : SyncAction}
    (h : (p, a) ∈ cycleActions m ans l r b) :
    actionAt m ans l r b p = some a := by
  unfold cycleActions at h
  rcases List.mem_filterMap.mp h with ⟨q, _, hq⟩
  rcases Option.map_eq_some'.mp hq with ⟨x, hx, hxq⟩
  rw [Prod.mk.injEq] at hxq
  obtain ⟨rfl, rfl⟩ := hxq
  exact hx

end Watch

/-- C1: the Change Detector classifies a path as a conflict iff the current
local entry differs from the baseline-local entry, the current remote entry
differs from the baseline-remote entry, and the current local and remote
entries differ; when local and remote entries are equal despite both
differing from baseline, the path is classified unchanged-resolved and
produces no prompt and no SyncAction. -/
theorem conflict_classification (m : Watch.Mode) (ans : Watch.Resolution)
    (bl br cl cr : Option Watch.Entry) :
    (Watch.classifyEntries bl br cl cr = .conflict ↔
      (cl ≠ bl ∧ cr ≠ br ∧ cl ≠ cr)) ∧
    (∀ e : Watch.Entry, cl = some e → cr = some e → cl ≠ bl → cr ≠ br →
      Watch.classifyEntries bl br cl cr = .unchangedResolved ∧
      Watch.promptRequired m (Watch.classifyEntries bl br cl cr) = false ∧
      Watch.actionForPath m ans bl br cl cr = none) := by
  constructor
  · exact Watch.classifyEntries_conflict_iff bl br cl cr
  · intro e he hre hl hr
    have hc : cl = cr := he.trans hre.symm
    have hcr := Watch.classifyEntries_converged bl br cl cr hl hr hc
      (by rw [he]; exact fun h => Option.noConfusion h)
    refine ⟨hcr, ?_, ?_⟩
    · rw [hcr]
      cases m <;> rfl
    · exact Watch.actionForPath_of_classify_none m ans bl br cl cr (.inr (.inl hcr))

/-- Witness for C1 at a concrete converged pair. -/
theorem conflict_classification_witness :
    Watch.classifyEntries none none (some ⟨1, 2, false⟩) (some ⟨1, 2, false⟩) =
      .unchangedResolved ∧
    Watch.actionForPath .ask .keepLocal none none
      (some ⟨1, 2, false⟩) (some ⟨1, 2, false⟩) = none := by
  have h := (conflict_classification .ask .keepLocal none none
      (some ⟨1, 2, false⟩) (some ⟨1, 2, false⟩)).2 ⟨1, 2, false⟩ rfl rfl
      (by simp) (by simp)
  exact ⟨h.1, h.2.2⟩

/-- C2: under the `newer` conflict-resolution mode, keep-local when the local
modifiedTime is strictly later, keep-remote when the remote one is strictly
later, and keep-local on an exact tie. -/
theorem newer_mode_resolution (ans : Watch.Resolution) (le re : Watch.Entry) :
    (re.modifiedTime < le.modifiedTime →
      Watch.resolveConflict .newer ans (some le) (some re) = .keepLocal) ∧
    (le.modifiedTime < re.modifiedTime →
      Watch.resolveConflict .newer ans (some le) (some re) = .keepRemote) ∧
    (le.modifiedTime = re.modifiedTime →
      Watch.resolveConflict .newer ans (some le) (some re) = .keepLocal) := by
  refine ⟨fun h => ?_, fun h => ?_, fun h => ?_⟩ <;>
    simp only [Watch.resolveConflict, Watch.entryMTime]
  · rw [if_neg (by omega)]
  · rw [if_pos (by omega)]
  · rw [if_neg (by omega)]

/-- Witness for C2: a strictly newer local wins, a tie keeps local. -/
theorem newer_mode_resolution_witness :
    Watch.resolveConflict .newer .keepRemote (some ⟨1, 5, false⟩) (some ⟨1, 3, false⟩)
      = .keepLocal ∧
    Watch.resolveConflict .newer .keepRemote (some ⟨1, 4, false⟩) (some ⟨1, 4, false⟩)
      = .keepLocal :=
  ⟨(newer_mode_resolution .keepRemote ⟨1, 5, false⟩ ⟨1, 3, false⟩).1 (by decide),
   (newer_mode_resolution .keepRemote ⟨1, 4, false⟩ ⟨1, 4, false⟩).2.2 rfl⟩

/-- C3: when every path is unchanged on both sides relative to the baseline,
one cycle decides zero SyncActions, leaves the trees and the baseline
unchanged, and repeating cycles with no external change is a fixed point. -/
theorem idle_cycle_fixed_point (m : Watch.Mode) (ans : Watch.Path → Watch.Resolution)
    (fails : Watch.Path → Bool) (st : Watch.CycleState)
    (h : ∀ p, Watch.findEntry st.localSnap p = Watch.findEntry st.baseline.localSnap p ∧
      Watch.findEntry st.remoteSnap p = Watch.findEntry st.baseline.remoteSnap p) :
    Watch.cycleActions m ans st.localSnap st.remoteSnap st.baseline = [] ∧
    Watch.runCycle m ans fails st = st ∧
    ∀ n, (Watch.runCycle m ans fails)^[n] st = st := by
  have hnil : Watch.cycleActions m ans st.localSnap st.remoteSnap st.baseline = [] := by
    rw [Watch.cycleActions, List.filterMap_eq_nil_iff]
    intro p _
    have hc := Watch.classifyEntries_unchanged
      (Watch.findEntry st.baseline.localSnap p) (Watch.findEntry st.baseline.remoteSnap p)
      (Watch.findEntry st.localSnap p) (Watch.findEntry st.remoteSnap p) (h p).1 (h p).2
    have ha := Watch.actionForPath_of_classify_none m (ans p) _ _ _ _ (.inl hc)
    rw [Watch.actionAt, ha]
    rfl
  have hfix : Watch.runCycle m ans fails st = st := by
    rw [Watch.runCycle, hnil]
    rfl
  refine ⟨hnil, hfix, fun n => ?_⟩
  induction n with
  | zero => rfl
  | succ k ih => rw [Function.iterate_succ_apply, hfix, ih]

/-- Witness for C3 at a concrete one-file state whose baseline matches both
sides. -/
theorem idle_cycle_fixed_point_witness :
    Watch.runCycle .ask (fun _ => .skip) (fun _ => false)
      ⟨[("a", ⟨1, 1, false⟩)], [("a", ⟨1, 1, false⟩)],
        ⟨[("a", ⟨1, 1, false⟩)], [("a", ⟨1, 1, false⟩)]⟩⟩ =
    ⟨[("a", ⟨1, 1, false⟩)], [("a", ⟨1, 1, false⟩)],
      ⟨[("a", ⟨1, 1, false⟩)], [("a", ⟨1, 1, false⟩)]⟩⟩ :=
  (idle_cycle_fixed_point .ask (fun _ => .skip) (fun _ => false)
    ⟨[("a", ⟨1, 1, false⟩)], [("a", ⟨1, 1, false⟩)],
      ⟨[("a", ⟨1, 1, false⟩)], [("a", ⟨1, 1, false⟩)]⟩⟩
    (fun _ => ⟨rfl, rfl⟩)).2.1

/-- C4: a skipped conflicting path (skip mode or an interactive skip answer)
leaves the baseline entry for that path exactly as before the cycle, and if
the local and remote entries are unchanged at the next cycle the same path is
classified as a conflict again. -/
theorem skip_leaves_baseline (m : Watch.Mode) (ans : Watch.Path → Watch.Resolution)
    (fails : Watch.Path → Bool) (st : Watch.CycleState) (p : Watch.Path)
    (l2 r2 : Watch.Snapshot)
    (hc : Watch.classifyPath st.localSnap st.remoteSnap st.baseline p = .conflict)
    (hs : Watch.resolveConflict m (ans p) (Watch.findEntry st.localSnap p)
      (Watch.findEntry st.remoteSnap p) = .skip)
    (hl : Watch.findEntry l2 p = Watch.findEntry st.localSnap p)
    (hr : Watch.findEntry r2 p = Watch.findEntry st.remoteSnap p) :
    Watch.findEntry (Watch.runCycle m ans fails st).baseline.localSnap p =
      Watch.findEntry st.baseline.localSnap p ∧
    Watch.findEntry (Watch.runCycle m ans fails st).baseline.remoteSnap p =
      Watch.findEntry st.baseline.remoteSnap p ∧
    Watch.classifyPath l2 r2 (Watch.runCycle m ans fails st).baseline p = .conflict := by
  rw [Watch.classifyPath] at hc
  have hact : Watch.actionAt m ans st.localSnap st.remoteSnap st.baseline p = none := by
    rw [Watch.actionAt, Watch.actionForPath, hc, hs]
  have hnot : p ∉ (Watch.cycleActions m ans st.localSnap st.remoteSnap
      st.baseline).map Prod.fst := by
    intro hmem
    rcases List.mem_map.mp hmem with ⟨⟨q, a⟩, hqa, hq⟩
    simp only at hq
    subst hq
    have := Watch.mem_cycleActions hqa
    rw [hact] at this
    cases this
  have hpres := Watch.runApply_not_mem fails p
    (Watch.cycleActions m ans st.localSnap st.remoteSnap st.baseline) st hnot
  rw [Watch.runCycle]
  refine ⟨hpres.2.2.1, hpres.2.2.2, ?_⟩
  rw [Watch.classifyPath, hpres.2.2.1, hpres.2.2.2, hl, hr]
  exact hc

/-- Witness for C4: a concrete conflict under skip mode re-detected from the
same snapshots. -/
theorem skip_leaves_baseline_witness :
    Watch.classifyPath [("a", ⟨2, 2, false⟩)] [("a", ⟨3, 3, false⟩)]
      (Watch.runCycle .skipMode (fun _ => .keepLocal) (fun _ => false)
        ⟨[("a", ⟨2, 2, false⟩)], [("a", ⟨3, 3, false⟩)],
          ⟨[("a", ⟨1, 1, false⟩)], [("a", ⟨1, 1, false⟩)]⟩⟩).baseline "a" =
      .conflict :=
  (skip_leaves_baseline .skipMode (fun _ => .keepLocal) (fun _ => false)
    ⟨[("a", ⟨2, 2, false⟩)], [("a", ⟨3, 3, false⟩)],
      ⟨[("a", ⟨1, 1, false⟩)], [("a", ⟨1, 1, false⟩)]⟩⟩ "a"
    [("a", ⟨2, 2, false⟩)] [("a", ⟨3, 3, false⟩)]
    (by decide) rfl rfl rfl).2.2

/-- C5: when the remote listing fails, the cycle reports the failure, applies
no SyncActions and produces no successor state (so it is never treated as an
empty remote tree), and the next cycle retries from the same baseline. -/
theorem remote_list_failure_atomic (m : Watch.Mode) (ans : Watch.Path → Watch.Resolution)
    (fails : Watch.Path → Bool) (b : Watch.Baseline) (l : Watch.Snapshot) :
    Watch.watchCycle m ans fails b (.ok l) (.error .remoteListError) =
      .error .remoteListError ∧
    (∀ out, Watch.watchCycle m ans fails b (.ok l) (.error .remoteListError) ≠
      .ok out) ∧
    Watch.watchStep m ans fails b (.ok l) (.error .remoteListError) = b := by
  refine ⟨rfl, ?_, rfl⟩
  intro out h
  have h2 : (Except.error .remoteListError :
      Except Watch.ListError (List (Watch.Path × Watch.SyncAction) × Watch.CycleState)) =
      .ok out := h
  cases h2

/-- Witness for C5 at a concrete baseline and local snapshot. -/
theorem remote_list_failure_atomic_witness :
    Watch.watchStep .ask (fun _ => .skip) (fun _ => false)
      ⟨[("a", ⟨1, 1, false⟩)], [("a", ⟨1, 1, false⟩)]⟩ (.ok [("a", ⟨2, 2, false⟩)])
      (.error .remoteListError) =
    ⟨[("a", ⟨1, 1, false⟩)], [("a", ⟨1, 1, false⟩)]⟩ :=
  (remote_list_failure_atomic .ask (fun _ => .skip) (fun _ => false)
    ⟨[("a", ⟨1, 1, false⟩)], [("a", ⟨1, 1, false⟩)]⟩ [("a", ⟨2, 2, false⟩)]).2.2

/-- C6: within one apply phase, one path's failure has no effect on any other
path's outcome; a failed path's baseline entry is left untouched (so it is
re-evaluated next cycle), and a succeeded path's baseline entry is updated to
the post-action entries recorded by recordSuccess. -/
theorem apply_phase_per_path (m : Watch.Mode) (ans : Watch.Path → Watch.Resolution)
    (fails fails2 : Watch.Path → Bool) (st : Watch.CycleState) (p : Watch.Path)
    (hagree : ∀ q, q ≠ p → fails2 q = fails q) :
    (∀ q, q ≠ p →
      Watch.findEntry (Watch.runCycle m ans fails2 st).baseline.localSnap q =
        Watch.findEntry (Watch.runCycle m ans fails st).baseline.localSnap q ∧
      Watch.findEntry (Watch.runCycle m ans fails2 st).baseline.remoteSnap q =
        Watch.findEntry (Watch.runCycle m ans fails st).baseline.remoteSnap q) ∧
    (fails p = true →
      Watch.findEntry (Watch.runCycle m ans fails st).baseline.localSnap p =
        Watch.findEntry st.baseline.localSnap p ∧
      Watch.findEntry (Watch.runCycle m ans fails st).baseline.remoteSnap p =
        Watch.findEntry st.baseline.remoteSnap p) ∧
    (∀ a, (p, a) ∈ Watch.cycleActions m ans st.localSnap st.remoteSnap st.baseline →
      fails p = false →
      Watch.findEntry (Watch.runCycle m ans fails st).baseline.localSnap p =
        (Watch.postEntries a (Watch.findEntry st.localSnap p)
          (Watch.findEntry st.remoteSnap p)).1 ∧
      Watch.findEntry (Watch.runCycle m ans fails st).baseline.remoteSnap p =
        (Watch.postEntries a (Watch.findEntry st.localSnap p)
          (Watch.findEntry st.remoteSnap p)).2) := by
  have hnd := Watch.cycleActions_keys_nodup m ans st.localSnap st.remoteSnap st.baseline
  rw [Watch.runCycle]
  refine ⟨?_, ?_, ?_⟩
  · intro q hq
    by_cases hmem : q ∈ (Watch.cycleActions m ans st.localSnap st.remoteSnap
        st.baseline).map Prod.fst
    · rcases List.mem_map.mp hmem with ⟨⟨q', a⟩, hqa, hq'⟩
      simp only at hq'
      subst hq'
      by_cases hfq : fails q' = true
      · have hfq2 : fails2 q' = true := (hagree q' hq).trans hfq
        have h1 := Watch.runApply_failed fails q' hfq
          (Watch.cycleActions m ans st.localSnap st.remoteSnap st.baseline) st
        have h2 := Watch.runApply_failed fails2 q' hfq2
          (Watch.cycleActions m ans st.localSnap st.remoteSnap st.baseline) st
        exact ⟨h2.2.2.1.trans h1.2.2.1.symm, h2.2.2.2.trans h1.2.2.2.symm⟩
      · have hfq' : fails q' = false := by
          cases hff : fails q'
          · rfl
          · exact absurd hff hfq
        have hfq2 : fails2 q' = false := (hagree q' hq).trans hfq'
        have h1 := Watch.runApply_mem fails q' a hfq'
          (Watch.cycleActions m ans st.localSnap st.remoteSnap st.baseline) st hnd hqa
        have h2 := Watch.runApply_mem fails2 q' a hfq2
          (Watch.cycleActions m ans st.localSnap st.remoteSnap st.baseline) st hnd hqa
        exact ⟨h2.1.trans h1.1.symm, h2.2.trans h1.2.symm⟩
    · have h1 := Watch.runApply_not_mem fails q
        (Watch.cycleActions m ans st.localSnap st.remoteSnap st.baseline) st hmem
      have h2 := Watch.runApply_not_mem fails2 q
        (Watch.cycleActions m ans st.localSnap st.remoteSnap st.baseline) st hmem
      exact ⟨h2.2.2.1.trans h1.2.2.1.symm, h2.2.2.2.trans h1.2.2.2.symm⟩
  · intro hfp
    have h1 := Watch.runApply_failed fails p hfp
      (Watch.cycleActions m ans st.localSnap st.remoteSnap st.baseline) st
    exact ⟨h1.2.2.1, h1.2.2.2⟩
  · intro a hmem hfp
    exact Watch.runApply_mem fails p a hfp
      (Watch.cycleActions m ans st.localSnap st.remoteSnap st.baseline) st hnd hmem

/-- Witness for C6: a succeeded new local file is recorded in the baseline. -/
theorem apply_phase_per_path_witness :
    Watch.findEntry (Watch.runCycle .ask (fun _ => .skip) (fun _ => false)
      ⟨[("a", ⟨1, 1, false⟩)], [], ⟨[], []⟩⟩).baseline.localSnap "a" =
    some ⟨1, 1, false⟩ :=
  ((apply_phase_per_path .ask (fun _ => .skip) (fun _ => false) (fun _ => false)
    ⟨[("a", ⟨1, 1, false⟩)], [], ⟨[], []⟩⟩ "a" (fun _ _ => rfl)).2.2
    .copyToRemote (by decide) rfl).1

/-- C7: the watch CLI exits with code 0 exactly on a clean operator-initiated
stop and with a non-zero code on an unrecoverable setup failure; in
particular the launcher exits 1 when there is no way to run the tool. -/
theorem watch_exit_code_spec :
    (∀ t, Watch.watchExitCode t = 0 ↔ t = .cleanStop) ∧
    Watch.watchExitCode .setupFailure ≠ 0 ∧
    (∀ (env : CheckDeps.Env) (args : List String) (c : Option Int),
      CheckDeps.runSshcp env args = .noRunner →
        CheckDeps.launcherExit env args c = 1) := by
  refine ⟨?_, by simp [Watch.watchExitCode], ?_⟩
  · intro t
    cases t <;> simp [Watch.watchExitCode]
  · intro env args c h
    rw [CheckDeps.launcherExit, h]

/-- Witness for C7: a launcher environment in which no runner exists exits
with code 1. -/
theorem watch_exit_code_spec_witness :
    CheckDeps.launcherExit CheckDeps.envNone ["watch", "src", "dst"] none = 1 :=
  watch_exit_code_spec.2.2 CheckDeps.envNone ["watch", "src", "dst"] none rfl

/-- C8: commandExists is a total Boolean function; it returns true exactly
when the platform lookup command (`where` on win32, `which` otherwise) exits
with status 0, and returns false when spawning the lookup command raises. -/
theorem commandExists_spec (env : CheckDeps.Env) (cmd : String) :
    (CheckDeps.commandExists env cmd = true ∨
      CheckDeps.commandExists env cmd = false) ∧
    (CheckDeps.commandExists env cmd = true ↔
      env.spawnSync (CheckDeps.lookupTool env.platform) [cmd] = .ok ⟨some 0⟩) ∧
    CheckDeps.lookupTool "win32" = "where" ∧
    (env.platform ≠ "win32" → CheckDeps.lookupTool env.platform = "which") ∧
    (env.spawnSync (CheckDeps.lookupTool env.platform) [cmd] = .error () →
      CheckDeps.commandExists env cmd = false) := by
  refine ⟨by cases h : CheckDeps.commandExists env cmd <;> simp, ?_, rfl, ?_, ?_⟩
  · rw [CheckDeps.commandExists]
    cases hres : env.spawnSync (CheckDeps.lookupTool env.platform) [cmd] with
    | error e => simp
    | ok r =>
      cases r with
      | mk status => simp [CheckDeps.SpawnResult.mk.injEq]
  · intro h
    rw [CheckDeps.lookupTool, if_neg h]
  · intro h
    rw [CheckDeps.commandExists, h]

/-- Witness for C8: when spawning the lookup tool raises, the result is
false. -/
theorem commandExists_spec_witness :
    CheckDeps.commandExists CheckDeps.envNone "uvx" = false ∧
    CheckDeps.lookupTool CheckDeps.envNone.platform = "which" :=
  ⟨(commandExists_spec CheckDeps.envNone "uvx").2.2.2.2 rfl,
   (commandExists_spec CheckDeps.envNone "uvx").2.2.2.1 (by decide)⟩

/-- C9: runSshcp spawns at most one child, chosen by the priority order
uvx, pipx, direct sshcp, forwarding the CLI arguments unchanged as a suffix
(with `run` prepended for pipx); with no runner available it spawns nothing,
prints installation instructions, and exits with code 1. -/
theorem runSshcp_spec (env : CheckDeps.Env) (args : List String)
    (closeCode : Option Int) :
    CheckDeps.spawnCount (CheckDeps.runSshcp env args) ≤ 1 ∧
    (CheckDeps.commandExists env "uvx" = true →
      CheckDeps.runSshcp env args =
        .spawned "uvx" (CheckDeps.PACKAGE_NAME :: args)) ∧
    (CheckDeps.commandExists env "uvx" = false →
      CheckDeps.commandExists env "pipx" = true →
      CheckDeps.runSshcp env args =
        .spawned "pipx" ("run" :: CheckDeps.PACKAGE_NAME :: args)) ∧
    (CheckDeps.commandExists env "uvx" = false →
      CheckDeps.commandExists env "pipx" = false →
      CheckDeps.commandExists env "sshcp" = true →
      CheckDeps.runSshcp env args = .spawned "sshcp" args) ∧
    (CheckDeps.commandExists env "uvx" = false →
      CheckDeps.commandExists env "pipx" = false →
      CheckDeps.commandExists env "sshcp" = false →
      CheckDeps.runSshcp env args = .noRunner ∧
      CheckDeps.spawnCount (CheckDeps.runSshcp env args) = 0 ∧
      CheckDeps.printsInstructions (CheckDeps.runSshcp env args) = true ∧
      CheckDeps.launcherExit env args closeCode = 1) := by
  refine ⟨?_, ?_, ?_, ?_, ?_⟩
  · cases CheckDeps.runSshcp env args <;> simp [CheckDeps.spawnCount]
  · intro h1
    simp [CheckDeps.runSshcp, h1]
  · intro h1 h2
    simp [CheckDeps.runSshcp, h1, h2]
  · intro h1 h2 h3
    simp [CheckDeps.runSshcp, h1, h2, h3]
  · intro h1 h2 h3
    have hnr : CheckDeps.runSshcp env args = .noRunner := by
      simp [CheckDeps.runSshcp, h1, h2, h3]
    exact ⟨hnr, by rw [hnr]; rfl, by rw [hnr]; rfl,
      by rw [CheckDeps.launcherExit, hnr]⟩

/-- Witness for C9: with only pipx available, the launcher spawns
`pipx run sshcp` with the user's arguments as a suffix. -/
theorem runSshcp_spec_witness :
    CheckDeps.runSshcp CheckDeps.envPipx ["--help"] =
      .spawned "pipx" ["run", "sshcp", "--help"] :=
  (runSshcp_spec CheckDeps.envPipx ["--help"] none).2.2.1 (by decide) (by decide)

/-- C10: the launcher's exit code equals the child's close code, and a null
close code (signal-terminated child) maps to exit code 0. -/
theorem close_code_mapping :
    (∀ c : Int, CheckDeps.exitCodeOfClose (some c) = c) ∧
    CheckDeps.exitCodeOfClose none = 0 := by
  refine ⟨?_, rfl⟩
  intro c
  rw [CheckDeps.exitCodeOfClose]
  by_cases h : c = 0
  · rw [if_pos h, h]
  · rw [if_neg h]
